import Mathlib

/-!
# Verification of the item-detail request-batching layer of TyrianTracker

Shallow embedding of `src/client/src/hooks/use-item-details.ts` and of the
`/api/items-bulk` route in `src/server/routes.ts`.

The client module keeps a module-level `itemQueue : Set<number>` and a single
`batchTimeout` handle.  `useItemDetails(itemId)` runs a `queryFn` that adds the
id to the queue, clears and re-arms a 50 ms timer, and then polls the
react-query cache every 100 ms until an entry for the id appears.
`processBatch` snapshots and clears the queue, makes one POST to
`/api/items-bulk` with all ids, and on success writes each returned item into
the cache keyed by its id; on failure it only logs.

We embed the mutable module state as an explicit `SimState`, the event loop as
step functions over timed request events, and the polling waiter as a fuel
indexed loop recording its resolutions.
-/

/-- An item detail object as returned by the server route
(`{id, name, icon, rarity, ...}`); fields beyond the id are opaque payload
for the purposes of the batching layer. -/
structure Item where
  id : Int
  name : String
  icon : String
  deriving DecidableEq, Repr

/-- The module-level mutable state of `use-item-details.ts`:
`itemQueue` (a JS `Set<number>`, embedded as a duplicate-free insertion-ordered
list), `batchTimeout` (the armed flush deadline in ms, if any), the react-query
cache for keys `["item", id]`, and a log of the bulk requests dispatched so far
(each entry is the `ids` array of one POST to `/api/items-bulk`). -/
structure SimState where
  itemQueue : List Int
  batchTimeout : Option Nat
  dispatched : List (List Int)
  cache : Int → Option Item

/-- `Set.add` of the JS `itemQueue`: inserting an id already present is a
no-op, otherwise it is appended. -/
def addId (q : List Int) (id : Int) : List Int :=
  if id ∈ q then q else q ++ [id]

/-- `queryClient.setQueryData(["item", item.id], item)` for each item of the
response array, in order (`items.forEach`); a later duplicate id overwrites an
earlier one. -/
def writeItems (c : Int → Option Item) (items : List Item) : Int → Option Item :=
  items.foldl (fun c it => fun j => if j = it.id then some it else c j) c

/-- `processBatch` from `use-item-details.ts`, with the outcome of the awaited
`apiRequest` passed in explicitly (`.ok items` = parsed JSON array of a
successful response, `.error ()` = network error or thrown non-success status).
If the queue is empty it returns at once; otherwise it snapshots and clears the
queue, records the bulk request, and on success caches each returned item.  The
`catch` block only logs (`console.error`): it writes nothing to the cache. -/
def processBatch (s : SimState) (resp : Except Unit (List Item)) : SimState :=
  if s.itemQueue = [] then s
  else
    match resp with
    | .ok items =>
        { s with itemQueue := [], dispatched := s.dispatched ++ [s.itemQueue],
                 cache := writeItems s.cache items }
    | .error _ =>
        { s with itemQueue := [], dispatched := s.dispatched ++ [s.itemQueue] }

/-- The body of the `queryFn` in `useItemDetails`, up to the returned promise:
`itemQueue.add(itemId)`, then `clearTimeout`/`setTimeout(processBatch, 50)` —
the flush deadline is re-armed to `t + 50` on every call. -/
def request (s : SimState) (t : Nat) (id : Int) : SimState :=
  { s with itemQueue := addId s.itemQueue id, batchTimeout := some (t + 50) }

/-- The initial module state: empty queue, no timer, nothing dispatched,
empty cache. -/
def initState : SimState :=
  { itemQueue := [], batchTimeout := none, dispatched := [], cache := fun _ => none }

/-- Timer semantics: if an armed deadline `d` has been reached by time `now`,
the timeout is consumed and `processBatch` runs (with the response the upstream
oracle `respOf` gives for the queue snapshot); otherwise nothing happens. -/
def fireIfDue (respOf : List Int → Except Unit (List Item)) (s : SimState)
    (now : Nat) : SimState :=
  match s.batchTimeout with
  | some d => if d ≤ now then processBatch { s with batchTimeout := none } (respOf s.itemQueue) else s
  | none => s

/-- One timed request event `(t, id)`: any due timer fires first, then the
`queryFn` body runs at time `t`. -/
def simStep (respOf : List Int → Except Unit (List Item)) (s : SimState)
    (e : Nat × Int) : SimState :=
  request (fireIfDue respOf s e.1) e.1 e.2

/-- After the last event, the armed timer (if any) eventually fires. -/
def finishSim (respOf : List Int → Except Unit (List Item)) (s : SimState) : SimState :=
  match s.batchTimeout with
  | some _ => processBatch { s with batchTimeout := none } (respOf s.itemQueue)
  | none => s

/-- Run a time-ordered list of request events from the initial state and let
the final timer fire. -/
def runSim (respOf : List Int → Except Unit (List Item))
    (events : List (Nat × Int)) : SimState :=
  finishSim respOf (events.foldl (simStep respOf) initState)

/-- `withinWindow t es` holds when every event of `es` arrives no earlier than
the previous event and strictly before the previous event's 50 ms deadline
(the timer is re-armed on every call, so the window is measured from the most
recent call); `t` is the time of the previous event. -/
def withinWindow : Nat → List (Nat × Int) → Prop
  | _, [] => True
  | t, e :: es => (t ≤ e.1 ∧ e.1 < t + 50) ∧ withinWindow e.1 es

/-- The ids of `events` deduplicated in arrival order: the contents of the
`itemQueue` after all the requests. -/
def queueOf (events : List (Nat × Int)) : List Int :=
  events.foldl (fun q e => addId q e.2) []

/-- The `/api/items-bulk` route handler in `src/server/routes.ts`, viewed as
the list of upstream GW2-API calls it makes for a parsed `ids` array: for an
empty array it answers `[]` without calling upstream, otherwise it makes
exactly one call `/items?ids=<all ids joined>` carrying every id. -/
def itemsBulkUpstreamCalls (ids : List Int) : List (List Int) :=
  if ids = [] then [] else [ids]

/-- The state of the polling waiter created by the `queryFn`'s returned
promise: `active` is whether the `setInterval` handle is still live, and
`resolutions` records every call of `resolve` so far. -/
structure WaiterState where
  active : Bool
  resolutions : List Item
  deriving DecidableEq, Repr

/-- One 100 ms tick of the waiter's `setInterval` callback, the `k`-th tick
firing at time `100 * (k + 1)`: if the interval is still live and
`queryClient.getQueryData(["item", itemId])` (the timeline `tl` at that time)
holds an entry, the interval is cleared and the promise resolved with it. -/
def wstep (tl : Nat → Option Item) (k : Nat) (s : WaiterState) : WaiterState :=
  if s.active then
    match tl (100 * (k + 1)) with
    | some it => { active := false, resolutions := s.resolutions ++ [it] }
    | none => s
  else s

/-- The waiter after its first `n` ticks, starting live with no resolution. -/
def waiterRun (tl : Nat → Option Item) (n : Nat) : WaiterState :=
  (List.range n).foldl (fun s k => wstep tl k s) { active := true, resolutions := [] }

/-- The observable behaviour of one `useItemDetails(itemId)` call at time `t`
against state `s`, as the pair (new module state, data synchronously available
to the caller).  `enabled: !!itemId` keeps the query from ever running its
`queryFn` when `itemId` is `0` (falsy), though react-query still surfaces any
cached data for the key; when the query runs and the cache already holds data
for the key, react-query returns that data synchronously (`staleTime` is 1 h:
a fresh entry, `fresh = true`, suppresses the refetch; a stale one re-runs the
`queryFn` in the background while the cached value is still returned at once);
only with no cached entry at all does the caller wait on the polling promise. -/
def useItemDetails (s : SimState) (t : Nat) (id : Int) (fresh : Bool) :
    SimState × Option Item :=
  if id = 0 then (s, s.cache id)
  else
    match s.cache id with
    | some it => (if fresh then s else request s t id, some it)
    | none => (request s t id, none)

/-- The time of the last event of `es`, defaulting to `t`. -/
def lastTime (t : Nat) : List (Nat × Int) → Nat
  | [] => t
  | e :: es => lastTime e.1 es

/-- 201 distinct item ids (1 through 201), one more than the GW2 API's 200-id
limit per request. -/
def ids201 : List Int := (List.range 201).map (fun n => (n : Int) + 1)

/-! ## Helper lemmas -/

theorem addId_mem (q : List Int) (i j : Int) : j ∈ addId q i ↔ j ∈ q ∨ j = i := by
  unfold addId
  by_cases h : i ∈ q
  · rw [if_pos h]
    constructor
    · exact Or.inl
    · rintro (hq | rfl)
      · exact hq
      · exact h
  · rw [if_neg h]
    simp

theorem addId_nodup (q : List Int) (i : Int) (h : q.Nodup) : (addId q i).Nodup := by
  unfold addId
  by_cases hm : i ∈ q <;> simp [hm, List.nodup_append, h]

theorem addId_ne_nil (q : List Int) (i : Int) : addId q i ≠ [] := by
  unfold addId
  by_cases hm : i ∈ q
  · rw [if_pos hm]
    rintro rfl
    simp at hm
  · rw [if_neg hm]
    simp

theorem addId_self_mem (q : List Int) (i : Int) : i ∈ addId q i := by
  rw [addId_mem]
  exact Or.inr rfl

theorem addId_of_mem (q : List Int) (i : Int) (h : i ∈ q) : addId q i = q := by
  simp [addId, h]

theorem queueOf_foldl_mem (events : List (Nat × Int)) (q : List Int) (j : Int) :
    j ∈ events.foldl (fun q e => addId q e.2) q ↔ j ∈ q ∨ j ∈ events.map Prod.snd := by
  induction events generalizing q with
  | nil => simp
  | cons e es ih =>
      simp only [List.foldl_cons, List.map_cons, List.mem_cons]
      rw [ih, addId_mem]
      tauto

theorem queueOf_foldl_nodup (events : List (Nat × Int)) (q : List Int) (h : q.Nodup) :
    (events.foldl (fun q e => addId q e.2) q).Nodup := by
  induction events generalizing q with
  | nil => exact h
  | cons e es ih => exact ih _ (addId_nodup _ _ h)

theorem queueOf_foldl_ne_nil (events : List (Nat × Int)) (q : List Int) (h : q ≠ []) :
    events.foldl (fun q e => addId q e.2) q ≠ [] := by
  induction events generalizing q with
  | nil => exact h
  | cons e es ih => exact ih _ (addId_ne_nil _ _)

/-- While every event stays strictly inside the window of the previous one, no
timer fires: the fold only accumulates ids and re-arms the deadline. -/
theorem sim_foldl_no_flush (respOf : List Int → Except Unit (List Item))
    (events : List (Nat × Int)) :
    ∀ t q disp cache, withinWindow t events →
      events.foldl (simStep respOf)
        { itemQueue := q, batchTimeout := some (t + 50), dispatched := disp, cache := cache } =
      { itemQueue := events.foldl (fun q e => addId q e.2) q,
        batchTimeout := some (lastTime t events + 50),
        dispatched := disp, cache := cache } := by
  induction events with
  | nil => intro t q disp cache _; rfl
  | cons e es ih =>
      intro t q disp cache hwin
      obtain ⟨⟨hle, hlt⟩, hwin'⟩ := hwin
      have hstep :
          simStep respOf
            { itemQueue := q, batchTimeout := some (t + 50), dispatched := disp, cache := cache }
            e =
          { itemQueue := addId q e.2, batchTimeout := some (e.1 + 50),
            dispatched := disp, cache := cache } := by
        simp [simStep, fireIfDue, request, Nat.not_le.mpr hlt]
      rw [List.foldl_cons, hstep, ih e.1 _ _ _ hwin']
      rfl

theorem waiterRun_succ (tl : Nat → Option Item) (n : Nat) :
    waiterRun tl (n + 1) = wstep tl n (waiterRun tl n) := by
  unfold waiterRun
  rw [List.range_succ, List.foldl_append, List.foldl_cons, List.foldl_nil]

theorem wstep_inactive (tl : Nat → Option Item) (k : Nat) (s : WaiterState)
    (h : s.active = false) : wstep tl k s = s := by
  simp [wstep, h]

/-- Run invariant of the polling waiter: either the interval is still live and
nothing has resolved (every tick so far saw an empty cache), or the interval
was cleared and exactly one resolution happened. -/
theorem waiterRun_inv (tl : Nat → Option Item) (n : Nat) :
    ((waiterRun tl n).active = true ∧ (waiterRun tl n).resolutions = [] ∧
      ∀ j < n, tl (100 * (j + 1)) = none) ∨
    ((waiterRun tl n).active = false ∧ ∃ it, (waiterRun tl n).resolutions = [it]) := by
  induction n with
  | zero =>
      left
      refine ⟨rfl, rfl, ?_⟩
      intro j hj
      exact absurd hj (Nat.not_lt_zero j)
  | succ n ih =>
      rw [waiterRun_succ]
      rcases ih with ⟨hact, hres, hnone⟩ | ⟨hact, it, hres⟩
      · cases htl : tl (100 * (n + 1)) with
        | none =>
            left
            refine ⟨?_, ?_, ?_⟩
            · simp [wstep, hact, htl]
            · simp [wstep, hact, htl, hres]
            · intro j hj
              rcases Nat.lt_succ_iff_lt_or_eq.mp hj with hj' | rfl
              · exact hnone j hj'
              · exact htl
        | some it =>
            right
            constructor
            · simp [wstep, hact, htl]
            · exact ⟨it, by simp [wstep, hact, htl, hres]⟩
      · right
        rw [wstep_inactive tl n _ hact]
        exact ⟨hact, it, hres⟩

/-- A waiter polling a cache that never gets an entry for its id stays live
forever and never resolves. -/
theorem waiterRun_none (tl : Nat → Option Item) (h : ∀ t, tl t = none) (n : Nat) :
    waiterRun tl n = { active := true, resolutions := [] } := by
  induction n with
  | zero => rfl
  | succ m ih =>
      rw [waiterRun_succ, ih]
      simp [wstep, h]

/-- `writeItems` leaves every id that does not occur in the response array
untouched. -/
theorem writeItems_not_mem (items : List Item) :
    ∀ (c : Int → Option Item) (id : Int), id ∉ items.map Item.id →
      writeItems c items id = c id := by
  induction items with
  | nil => intro c id _; rfl
  | cons it its ih =>
      intro c id h
      rw [List.map_cons, List.mem_cons] at h
      push_neg at h
      unfold writeItems
      rw [List.foldl_cons]
      have := ih (fun j => if j = it.id then some it else c j) id h.2
      unfold writeItems at this
      rw [this]
      simp [h.1]

/-- A waiter over a cache that always holds an entry resolves at its very
first tick and stays resolved. -/
theorem waiterRun_const_some (it : Item) (m : Nat) :
    waiterRun (fun _ => some it) (m + 1) = { active := false, resolutions := [it] } := by
  induction m with
  | zero => rfl
  | succ k ih =>
      rw [waiterRun_succ, ih]
      rfl

/-! ## Claim theorems -/

/-- C1: For every sequence of `requestItem` (`useItemDetails`) calls for
distinct ids all issued within one 50 ms debounce window (the timer is
re-armed on every call), exactly one flush of the pending batch occurs —
`dispatched` gains exactly one entry — and the single outgoing bulk-lookup
request covers each requested id exactly once (it is the dedup of the
requested ids). -/
theorem one_window_single_flush_covers_all
    (respOf : List Int → Except Unit (List Item))
    (e : Nat × Int) (es : List (Nat × Int))
    (hwin : withinWindow e.1 es) :
    (runSim respOf (e :: es)).dispatched = [queueOf (e :: es)]
    ∧ (queueOf (e :: es) : Multiset Int) =
        Multiset.dedup (((e :: es).map Prod.snd : List Int) : Multiset Int) := by
  have haddnil : addId [] e.2 = [e.2] := by simp [addId]
  have hq : queueOf (e :: es) = es.foldl (fun q e => addId q e.2) [e.2] := by
    unfold queueOf
    rw [List.foldl_cons, haddnil]
  have h1 : (e :: es).foldl (simStep respOf) initState =
      { itemQueue := es.foldl (fun q e => addId q e.2) [e.2],
        batchTimeout := some (lastTime e.1 es + 50),
        dispatched := [], cache := fun _ => none } := by
    rw [List.foldl_cons]
    have hstep : simStep respOf initState e =
        { itemQueue := [e.2], batchTimeout := some (e.1 + 50),
          dispatched := [], cache := fun _ => none } := by
      simp [simStep, fireIfDue, initState, request, addId]
    rw [hstep]
    exact sim_foldl_no_flush respOf es e.1 [e.2] [] (fun _ => none) hwin
  have hnil : es.foldl (fun q e => addId q e.2) [e.2] ≠ [] :=
    queueOf_foldl_ne_nil es [e.2] (by simp)
  have hnd : (queueOf (e :: es)).Nodup := by
    rw [hq]
    exact queueOf_foldl_nodup es [e.2] (by simp)
  constructor
  · rw [runSim, h1]
    unfold finishSim
    rw [hq]
    unfold processBatch
    cases hr : respOf (es.foldl (fun q e => addId q e.2) [e.2]) <;>
      simp [hnil]
  · rw [Multiset.coe_dedup, Multiset.coe_eq_coe]
    refine (List.perm_ext_iff_of_nodup hnd (List.nodup_dedup _)).mpr ?_
    intro a
    rw [List.mem_dedup, hq, queueOf_foldl_mem]
    simp

/-- Closed instance of the C1 theorem: ids 42 at t = 0 and 7 at t = 40 fall in
one window; the run makes exactly one bulk request containing 42 and 7 once
each. -/
theorem one_window_single_flush_covers_all_witness :
    withinWindow 0 [(40, (7 : Int))]
    ∧ ((runSim (fun _ => .error ()) [(0, (42 : Int)), (40, 7)]).dispatched =
        [queueOf [(0, 42), (40, 7)]]
      ∧ (queueOf [(0, (42 : Int)), (40, 7)] : Multiset Int) =
          Multiset.dedup ((([(0, (42 : Int)), (40, 7)]).map Prod.snd : List Int) :
            Multiset Int)) := by
  refine ⟨?_, ?_⟩
  · exact ⟨⟨by norm_num, by norm_num⟩, trivial⟩
  · exact one_window_single_flush_covers_all (fun _ => .error ()) (0, 42) [(40, 7)]
      ⟨⟨by norm_num, by norm_num⟩, trivial⟩

/-- C2 counterexample: dispatch id 7 and let the bulk call fail.  The claim
says a failure sentinel is written into the cache for id 7 so its waiter is
released; in fact the `catch` block only logs, the cache still has no entry
for 7 at all, and the waiter is still unresolved (and still polling) after
five 100 ms ticks. -/
theorem chunk_failure_writes_no_sentinel :
    (processBatch
        { itemQueue := [7], batchTimeout := none, dispatched := [],
          cache := fun _ => none } (.error ())).cache 7 = none
    ∧ (waiterRun (fun _ =>
        (processBatch
          { itemQueue := [7], batchTimeout := none, dispatched := [],
            cache := fun _ => none } (.error ())).cache 7) 5) =
      { active := true, resolutions := [] } := by
  constructor
  · rfl
  · rfl

/-- C2 amended: when the bulk lookup for the dispatched batch fails, the
`catch` block only logs the error — the Result Cache is left entirely
unchanged (no failure sentinel is written for any id of the batch), even
though the request itself was dispatched. -/
theorem chunk_failure_only_logs (s : SimState) (h : s.itemQueue ≠ []) :
    (processBatch s (.error ())).cache = s.cache
    ∧ (processBatch s (.error ())).dispatched = s.dispatched ++ [s.itemQueue] := by
  unfold processBatch
  rw [if_neg h]
  exact ⟨rfl, rfl⟩

/-- Closed instance of the amended C2 theorem at the one-id batch `[7]`. -/
theorem chunk_failure_only_logs_witness :
    (([7] : List Int) ≠ [])
    ∧ ((processBatch
          { itemQueue := [7], batchTimeout := none, dispatched := [],
            cache := fun _ => none } (.error ())).cache =
        ({ itemQueue := [7], batchTimeout := none, dispatched := [],
           cache := fun _ => none } : SimState).cache
      ∧ (processBatch
          { itemQueue := [7], batchTimeout := none, dispatched := [],
            cache := fun _ => none } (.error ())).dispatched =
        ([] : List (List Int)) ++ [[7]]) := by
  exact ⟨by simp,
    chunk_failure_only_logs
      { itemQueue := [7], batchTimeout := none, dispatched := [],
        cache := fun _ => none } (by simp)⟩

/-- C3 (code bug witnessed on the embedding): after id 7 is dispatched and the
bulk call fails, nothing is ever written to the cache for id 7, and the
waiter's 100 ms `setInterval` loop — which has no ceiling — never resolves, at
any number of ticks: the code leaves a dispatched id waiting indefinitely. -/
theorem dispatched_id_waits_forever (n : Nat) :
    (waiterRun (fun _ =>
        (processBatch
          { itemQueue := [7], batchTimeout := none, dispatched := [],
            cache := fun _ => none } (.error ())).cache 7) n) =
      { active := true, resolutions := [] } := by
  exact waiterRun_none _ (fun _ => rfl) n

set_option maxRecDepth 4000 in
/-- C4 (code bug witnessed on the embedding): with 201 distinct pending ids,
the client sends the entire snapshot as one bulk request, and the server's
`/api/items-bulk` handler forwards all of them in a single upstream GW2-API
call of 201 ids — despite its own comment noting the API's 200-id limit — so
the 200-id ceiling claimed for every upstream call is exceeded. -/
theorem bulk_call_exceeds_upstream_limit :
    (processBatch
        { itemQueue := ids201, batchTimeout := none, dispatched := [],
          cache := fun _ => none } (.error ())).dispatched = [ids201]
    ∧ itemsBulkUpstreamCalls ids201 = [ids201]
    ∧ ids201.length = 201
    ∧ ¬ (∀ c ∈ itemsBulkUpstreamCalls ids201, c.length ≤ 200) := by
  have hne : ids201 ≠ [] := by decide
  refine ⟨?_, ?_, by decide, ?_⟩
  · unfold processBatch
    rw [if_neg hne]
    simp
  · unfold itemsBulkUpstreamCalls
    rw [if_neg hne]
  · intro hall
    have hmem : ids201 ∈ itemsBulkUpstreamCalls ids201 := by
      unfold itemsBulkUpstreamCalls
      rw [if_neg hne]
      exact List.mem_singleton.mpr rfl
    have hlen := hall _ hmem
    have : ids201.length = 201 := by decide
    omega

/-- C5: requesting the same id twice before resolution is a no-op on the
pending set (it holds the id exactly once), a concrete two-request run within
one window dispatches the id upstream exactly once, and every waiter polling
the shared cache for that id resolves with the one cached value, so all
callers observe the same resolution. -/
theorem duplicate_request_single_dispatch (s : SimState) (t1 t2 : Nat)
    (id : Int) (it : Item) (n : Nat) (hnd : s.itemQueue.Nodup) (hn : 1 ≤ n) :
    (request (request s t1 id) t2 id).itemQueue = (request s t1 id).itemQueue
    ∧ ((request (request s t1 id) t2 id).itemQueue).count id = 1
    ∧ (runSim (fun _ => .error ()) [(0, (42 : Int)), (10, 42)]).dispatched = [[42]]
    ∧ (waiterRun (fun _ => some it) n).resolutions = [it] := by
  have hmem : id ∈ (request s t1 id).itemQueue := addId_self_mem s.itemQueue id
  have heq : (request (request s t1 id) t2 id).itemQueue =
      (request s t1 id).itemQueue := by
    show addId (addId s.itemQueue id) id = addId s.itemQueue id
    exact addId_of_mem _ _ hmem
  refine ⟨heq, ?_, by decide, ?_⟩
  · rw [heq]
    exact List.count_eq_one_of_mem (addId_nodup s.itemQueue id hnd) hmem
  · obtain ⟨m, rfl⟩ : ∃ m, n = m + 1 :=
      ⟨n - 1, by omega⟩
    rw [waiterRun_const_some]

/-- Closed instance of the C5 theorem: second request for id 42 against a
one-element queue is a set no-op, the id is dispatched once, and a two-tick
waiter resolves with the single cached item. -/
theorem duplicate_request_single_dispatch_witness :
    (([42] : List Int).Nodup ∧ 1 ≤ 2)
    ∧ ((request (request (SimState.mk [42] none [] (fun _ => none)) 0 42) 10 42).itemQueue =
        (request (SimState.mk [42] none [] (fun _ => none)) 0 42).itemQueue
      ∧ ((request (request (SimState.mk [42] none [] (fun _ => none)) 0 42) 10 42).itemQueue).count 42 = 1
      ∧ (runSim (fun _ => .error ()) [(0, (42 : Int)), (10, 42)]).dispatched = [[42]]
      ∧ (waiterRun (fun _ => some (Item.mk 42 "a" "b")) 2).resolutions =
          [Item.mk 42 "a" "b"]) := by
  exact ⟨⟨by decide, by decide⟩,
    duplicate_request_single_dispatch (SimState.mk [42] none [] (fun _ => none))
      0 10 42 (Item.mk 42 "a" "b") 2 (by decide) (by decide)⟩

/-- C6 counterexample: the only call-boundary guard is `enabled: !!itemId`,
and `-1` is truthy in JavaScript, so a `useItemDetails(-1)` call runs the
`queryFn` and inserts the negative id into the pending set — it is not
rejected. -/
theorem negative_id_enters_queue :
    ((useItemDetails initState 0 (-1) true).1).itemQueue = [(-1 : Int)] := by
  decide

/-- C6 amended: only a zero (JavaScript-falsy) id is kept out by the
`enabled: !!itemId` gate — such a call leaves the module state untouched and
the id never enters the pending set; a negative id passes the gate and (when
uncached) is inserted into the pending set like any other id.  There is no
synchronous rejection at the call boundary. -/
theorem zero_id_never_enqueued (s : SimState) (t : Nat) (fresh : Bool) :
    (useItemDetails s t 0 fresh).1 = s
    ∧ (s.cache (-1) = none →
        ((useItemDetails s t (-1) fresh).1).itemQueue = addId s.itemQueue (-1)) := by
  constructor
  · simp [useItemDetails]
  · intro h
    simp [useItemDetails, h, request]

/-- Closed instance of the amended C6 theorem at the initial state. -/
theorem zero_id_never_enqueued_witness :
    (useItemDetails initState 0 0 true).1 = initState
    ∧ ((useItemDetails initState 0 (-1) true).1).itemQueue =
        addId initState.itemQueue (-1) := by
  exact ⟨(zero_id_never_enqueued initState 0 true).1,
    (zero_id_never_enqueued initState 0 true).2 rfl⟩

/-- C7: an id that already has a cache entry resolves at the call itself:
react-query hands the cached value back synchronously (latency 0 ms, under the
50 ms window), and no new dispatch happens at the call — the `dispatched` log
is unchanged whatever the staleness outcome. -/
theorem cached_id_resolves_immediately (s : SimState) (t : Nat) (id : Int)
    (fresh : Bool) (it : Item) (h : s.cache id = some it) :
    (useItemDetails s t id fresh).2 = some it
    ∧ ((useItemDetails s t id fresh).1).dispatched = s.dispatched := by
  unfold useItemDetails
  by_cases h0 : id = 0
  · subst h0
    rw [h]
    exact ⟨rfl, rfl⟩
  · rw [if_neg h0, h]
    refine ⟨rfl, ?_⟩
    by_cases hf : fresh <;> simp [hf, request]

/-- Closed instance of the C7 theorem: a cached id 42 is returned at the call
with no new dispatch. -/
theorem cached_id_resolves_immediately_witness :
    ({ itemQueue := [], batchTimeout := none, dispatched := [],
        cache := fun j => if j = 42 then some { id := 42, name := "a", icon := "b" }
          else none } : SimState).cache 42 =
      some { id := 42, name := "a", icon := "b" }
    ∧ ((useItemDetails
          { itemQueue := [], batchTimeout := none, dispatched := [],
            cache := fun j => if j = 42 then some { id := 42, name := "a", icon := "b" }
              else none } 0 42 true).2 = some { id := 42, name := "a", icon := "b" }
      ∧ ((useItemDetails
          { itemQueue := [], batchTimeout := none, dispatched := [],
            cache := fun j => if j = 42 then some { id := 42, name := "a", icon := "b" }
              else none } 0 42 true).1).dispatched = []) := by
  exact ⟨by decide,
    cached_id_resolves_immediately
      { itemQueue := [], batchTimeout := none, dispatched := [],
        cache := fun j => if j = 42 then some { id := 42, name := "a", icon := "b" }
          else none } 0 42 true { id := 42, name := "a", icon := "b" } (by decide)⟩

/-- C8: when the flush timer fires with an empty pending set, `processBatch`
returns at its first guard: the state — queue, timer, dispatch log, and the
whole cache — is exactly as before, no upstream call is made (the server route
also makes no upstream call for an empty ids array), and no error is raised
(the function is total). -/
theorem empty_snapshot_noop (s : SimState) (resp : Except Unit (List Item))
    (h : s.itemQueue = []) :
    processBatch s resp = s ∧ itemsBulkUpstreamCalls s.itemQueue = [] := by
  constructor
  · unfold processBatch
    rw [if_pos h]
  · rw [h]
    rfl

/-- Closed instance of the C8 theorem at the initial state. -/
theorem empty_snapshot_noop_witness :
    processBatch initState (.error ()) = initState
    ∧ itemsBulkUpstreamCalls initState.itemQueue = [] := by
  exact empty_snapshot_noop initState (.error ()) rfl

/-- Once the waiter's interval has been cleared, every further tick leaves the
waiter state unchanged. -/
theorem waiterRun_stable (tl : Nat → Option Item) (n : Nat)
    (h : (waiterRun tl n).active = false) :
    ∀ m, waiterRun tl (n + m) = waiterRun tl n := by
  intro m
  induction m with
  | zero => rfl
  | succ k ih =>
      have : n + (k + 1) = (n + k) + 1 := by omega
      rw [this, waiterRun_succ, ih, wstep_inactive]
      exact h

/-- C9: once the cache holds an entry by some tick, the waiter has produced
exactly one resolution; it resolved no later than the first tick that saw the
entry (the interval is cleared there), and the state is terminal — any number
of further ticks changes nothing, so no second resolution ever happens. -/
theorem waiter_exactly_one_resolution (tl : Nat → Option Item) (n j m : Nat)
    (hj : j < n) (hsome : (tl (100 * (j + 1))).isSome) :
    ((waiterRun tl n).resolutions).length = 1
    ∧ (waiterRun tl (j + 1)).active = false
    ∧ waiterRun tl (n + m) = waiterRun tl n := by
  have hactn : (waiterRun tl n).active = false ∧
      ((waiterRun tl n).resolutions).length = 1 := by
    rcases waiterRun_inv tl n with ⟨_, _, hnone⟩ | ⟨hact, it, hres⟩
    · rw [hnone j hj] at hsome
      exact absurd hsome (by simp)
    · exact ⟨hact, by rw [hres]; rfl⟩
  have hactj : (waiterRun tl (j + 1)).active = false := by
    rcases waiterRun_inv tl (j + 1) with ⟨_, _, hnone⟩ | ⟨hact, _, _⟩
    · rw [hnone j (Nat.lt_succ_self j)] at hsome
      exact absurd hsome (by simp)
    · exact hact
  exact ⟨hactn.2, hactj, waiterRun_stable tl n hactn.1 m⟩

/-- Closed instance of the C9 theorem: an entry appears at the first tick
(t = 100 ms); a two-tick waiter holds exactly one resolution, is already
resolved after tick one, and three more ticks change nothing. -/
theorem waiter_exactly_one_resolution_witness :
    (0 < 2 ∧ (((fun t => if t = 100 then some (Item.mk 1 "a" "b") else none) :
        Nat → Option Item) (100 * (0 + 1))).isSome)
    ∧ (((waiterRun (fun t => if t = 100 then some (Item.mk 1 "a" "b") else none) 2).resolutions).length = 1
      ∧ (waiterRun (fun t => if t = 100 then some (Item.mk 1 "a" "b") else none) (0 + 1)).active = false
      ∧ waiterRun (fun t => if t = 100 then some (Item.mk 1 "a" "b") else none) (2 + 3) =
          waiterRun (fun t => if t = 100 then some (Item.mk 1 "a" "b") else none) 2) := by
  exact ⟨⟨by decide, by decide⟩,
    waiter_exactly_one_resolution
      (fun t => if t = 100 then some (Item.mk 1 "a" "b") else none) 2 0 3
      (by decide) (by decide)⟩

/-- C10: on a successful bulk response, `processBatch` writes cache entries
only for the ids present in the returned array: any id absent from the
response keeps exactly its previous cache entry (in particular a dispatched id
the upstream omitted gains no entry), and if it had none, its waiter polls on
unresolved for any number of ticks. -/
theorem success_writes_only_returned_ids (s : SimState) (items : List Item)
    (id : Int) (n : Nat) (h : id ∉ items.map Item.id) :
    (processBatch s (.ok items)).cache id = s.cache id
    ∧ (s.cache id = none →
        (waiterRun (fun _ => (processBatch s (.ok items)).cache id) n) =
          { active := true, resolutions := [] }) := by
  have hc : (processBatch s (.ok items)).cache id = s.cache id := by
    unfold processBatch
    by_cases hq : s.itemQueue = []
    · rw [if_pos hq]
    · rw [if_neg hq]
      exact writeItems_not_mem items s.cache id h
  refine ⟨hc, ?_⟩
  intro h0
  exact waiterRun_none _ (fun _ => by rw [hc, h0]) n

/-- Closed instance of the C10 theorem: the batch `[5, 99]` is answered with
item 5 only; id 99 still has no cache entry and its waiter is unresolved after
four ticks. -/
theorem success_writes_only_returned_ids_witness :
    ((99 : Int) ∉ [Item.mk 5 "a" "b"].map Item.id)
    ∧ ((processBatch (SimState.mk [5, 99] none [] (fun _ => none))
          (.ok [Item.mk 5 "a" "b"])).cache 99 =
        (SimState.mk [5, 99] none [] (fun _ => none)).cache 99
      ∧ (waiterRun (fun _ =>
          (processBatch (SimState.mk [5, 99] none [] (fun _ => none))
            (.ok [Item.mk 5 "a" "b"])).cache 99) 4) =
          { active := true, resolutions := [] }) := by
  refine ⟨by decide, ?_, ?_⟩
  · exact (success_writes_only_returned_ids
      (SimState.mk [5, 99] none [] (fun _ => none)) [Item.mk 5 "a" "b"] 99 4
      (by decide)).1
  · exact (success_writes_only_returned_ids
      (SimState.mk [5, 99] none [] (fun _ => none)) [Item.mk 5 "a" "b"] 99 4
      (by decide)).2 rfl
